import Mathlib

/-!
Shallow embedding of `benchmark_device_sync_fix.py` (sglang benchmark script).

The script has three parts:
* `send_request`: builds a chat-completion HTTP POST payload, times the round
  trip, and extracts `usage.completion_tokens` from the JSON response.
* `benchmark_concurrent`: submits `num_requests` identical requests to a
  thread pool, collects results in completion order, and aggregates
  latency/throughput statistics.
* `main`: warmup calls, a sequential timed phase, then the concurrent phase.

Time measurements and the HTTP exchange are nondeterministic inputs: we model
each request's outcome (latency, generated-token count) as a function of the
request index, the completion order of the pool as a list of request indices,
and the measured wall-clock span as a parameter.  Latencies are rationals
(exact arithmetic in place of Python floats).
-/

/-- Python `"x " * prompt_tokens`: the string `s` repeated `n` times. -/
def strRepeat (s : String) : Nat → String
  | 0 => ""
  | n + 1 => s ++ strRepeat s n

/-- The synthetic prompt built by `send_request` (line 27): `"x " * prompt_tokens`. -/
def buildPrompt (prompt_tokens : Nat) : String :=
  strRepeat "x " prompt_tokens

/-- One entry of the `messages` array of the request payload. -/
structure ChatMessage where
  role : String
  content : String
deriving DecidableEq

/-- The JSON body `send_request` posts (lines 28-33).  The structure has
exactly the four fields the script writes. -/
structure RequestPayload where
  model : String
  messages : List ChatMessage
  max_tokens : Nat
  temperature : ℚ
deriving DecidableEq

/-- The HTTP POST issued by `send_request` (line 35): target URL and JSON body. -/
structure HttpPost where
  postUrl : String
  payload : RequestPayload
deriving DecidableEq

/-- The `usage` object of the server's JSON response. -/
structure ApiUsage where
  completion_tokens : Nat

/-- The part of the server's JSON response that `send_request` reads. -/
structure ApiResponse where
  usage : ApiUsage

/-- The request constructed by `send_request` (lines 27-35): POST to
`url ++ "/v1/chat/completions"` with body
`{model, messages: [{role: "user", content: prompt}], max_tokens, temperature: 0.0}`. -/
def send_request_post (url model : String) (prompt_tokens max_tokens : Nat) : HttpPost :=
  { postUrl := url ++ "/v1/chat/completions"
    payload :=
      { model := model
        messages := [{ role := "user", content := buildPrompt prompt_tokens }]
        max_tokens := max_tokens
        temperature := 0 } }

/-- The token count `send_request` returns (line 38): `result['usage']['completion_tokens']`. -/
def send_request_tokens (resp : ApiResponse) : Nat :=
  resp.usage.completion_tokens

/-- Python `statistics.mean` on rationals: sum divided by length. -/
def mean (l : List ℚ) : ℚ :=
  l.sum / l.length

/-- Python `statistics.median`: sort ascending; middle element for odd length,
average of the two middle elements for even length. -/
def median (l : List ℚ) : ℚ :=
  if (l.insertionSort (· ≤ ·)).length % 2 = 1 then
    (l.insertionSort (· ≤ ·)).getD ((l.insertionSort (· ≤ ·)).length / 2) 0
  else
    ((l.insertionSort (· ≤ ·)).getD ((l.insertionSort (· ≤ ·)).length / 2 - 1) 0 +
      (l.insertionSort (· ≤ ·)).getD ((l.insertionSort (· ≤ ·)).length / 2) 0) / 2

/-- Line 58: `sorted(latencies)[int(0.99 * len(latencies))]`.  With exact
arithmetic `int(0.99 * n)` is `⌊99 n / 100⌋`, i.e. Nat division. -/
def p99 (l : List ℚ) : ℚ :=
  (l.insertionSort (· ≤ ·)).getD (99 * l.length / 100) 0

/-- The dictionary returned by `benchmark_concurrent` (lines 54-62). -/
structure ConcurrentStats where
  total_time : ℚ
  avg_latency : ℚ
  p50_latency : ℚ
  p99_latency : ℚ
  throughput_req_s : ℚ
  throughput_tok_s : ℚ
  total_tokens : Nat
deriving DecidableEq

/-- Aggregation part of `benchmark_concurrent` (lines 52-62), applied to the
collected `results` list of (latency, token-count) pairs and the measured
wall-clock span `total_time`. -/
def benchmark_concurrent_stats (num_requests : Nat) (results : List (ℚ × Nat))
    (total_time : ℚ) : ConcurrentStats :=
  let latencies := results.map Prod.fst
  let tokens := (results.map Prod.snd).sum
  { total_time := total_time
    avg_latency := mean latencies
    p50_latency := median latencies
    p99_latency := p99 latencies
    throughput_req_s := (num_requests : ℚ) / total_time
    throughput_tok_s := (tokens : ℚ) / total_time
    total_tokens := tokens }

/-- Collection part of `benchmark_concurrent` (line 49):
`results = [f.result() for f in concurrent.futures.as_completed(futures)]`.
`outcome i` is the (latency, token-count) result of the future submitted for
request `i`; `order` is the completion order delivered by `as_completed`.
For a successful run `order` is a permutation of `range num_requests`
(each submitted future completes and is yielded exactly once). -/
def collectResults (outcome : Nat → ℚ × Nat) (order : List Nat) : List (ℚ × Nat) :=
  order.map outcome

/-- `benchmark_concurrent` (lines 42-62): collect the results in completion
order, then aggregate. -/
def benchmark_concurrent (num_requests : Nat) (outcome : Nat → ℚ × Nat)
    (order : List Nat) (total_time : ℚ) : ConcurrentStats :=
  benchmark_concurrent_stats num_requests (collectResults outcome order) total_time

/-- C1: for a successful concurrent run with `--requests = n` (the completion
order is a permutation of the `n` submitted futures), the collected results
list has length exactly `n`, and consists of exactly one (latency, tokens)
pair per dispatched request. -/
theorem C1_result_count (n : Nat) (outcome : Nat → ℚ × Nat) (order : List Nat)
    (hord : order.Perm (List.range n)) :
    (collectResults outcome order).length = n ∧
    (collectResults outcome order).Perm ((List.range n).map outcome) := by
  constructor
  · simpa [collectResults] using hord.length_eq
  · exact hord.map outcome

/-- Witness for C1 at `n = 3`, `order = [2, 0, 1]`. -/
theorem C1_result_count_witness :
    (collectResults (fun i => ((i : ℚ), 10)) [2, 0, 1]).length = 3 ∧
    (collectResults (fun i => ((i : ℚ), 10)) [2, 0, 1]).Perm
      ((List.range 3).map (fun i => ((i : ℚ), 10))) :=
  C1_result_count 3 (fun i => ((i : ℚ), 10)) [2, 0, 1] (by decide)

/-- C3: for a successful concurrent batch of `n` requests with measured span
`T > 0`, the reported `total_tokens` is the sum of the per-request token
counts, the reported request throughput is `n / T`, and the reported token
throughput is `total_tokens / T`. -/
theorem C3_throughput (n : Nat) (outcome : Nat → ℚ × Nat) (order : List Nat)
    (T : ℚ) (hord : order.Perm (List.range n)) (hT : 0 < T) :
    (benchmark_concurrent n outcome order T).total_tokens =
      ((List.range n).map (fun i => (outcome i).2)).sum ∧
    (benchmark_concurrent n outcome order T).throughput_req_s = (n : ℚ) / T ∧
    (benchmark_concurrent n outcome order T).throughput_tok_s =
      (((benchmark_concurrent n outcome order T).total_tokens : ℚ)) / T := by
  refine ⟨?_, rfl, rfl⟩
  have h : ((collectResults outcome order).map Prod.snd).Perm
      ((List.range n).map (fun i => (outcome i).2)) := by
    simpa [collectResults, List.map_map, Function.comp] using (hord.map (fun i => (outcome i).2))
  simpa [benchmark_concurrent, benchmark_concurrent_stats] using h.sum_eq

/-- Witness for C3 at `n = 2`, `order = [1, 0]`, `T = 4`. -/
theorem C3_throughput_witness :
    (benchmark_concurrent 2 (fun i => ((i : ℚ), 10)) [1, 0] 4).total_tokens =
      ((List.range 2).map (fun i => (((fun i => ((i : ℚ), 10)) i)).2)).sum ∧
    (benchmark_concurrent 2 (fun i => ((i : ℚ), 10)) [1, 0] 4).throughput_req_s =
      ((2 : Nat) : ℚ) / 4 ∧
    (benchmark_concurrent 2 (fun i => ((i : ℚ), 10)) [1, 0] 4).throughput_tok_s =
      (((benchmark_concurrent 2 (fun i => ((i : ℚ), 10)) [1, 0] 4).total_tokens : ℚ)) / 4 :=
  C3_throughput 2 (fun i => ((i : ℚ), 10)) [1, 0] 4 (by decide) (by norm_num)

/-- C7: `send_request` posts to `url ++ "/v1/chat/completions"` a body with
exactly the fields `model`, `messages = [{role: "user", content: prompt}]`,
`max_tokens`, `temperature = 0.0`, and extracts the returned token count from
`usage.completion_tokens`. -/
theorem C7_request_shape (u m : String) (p k : Nat) (resp : ApiResponse) :
    send_request_post u m p k =
      { postUrl := u ++ "/v1/chat/completions"
        payload :=
          { model := m
            messages := [{ role := "user", content := buildPrompt p }]
            max_tokens := k
            temperature := 0 } } ∧
    send_request_tokens resp = resp.usage.completion_tokens :=
  ⟨rfl, rfl⟩

/-- Count of space characters (the token separator) in a string. -/
def sepCount (s : String) : Nat :=
  s.data.count ' '

theorem sepCount_buildPrompt (p : Nat) : sepCount (buildPrompt p) = p := by
  induction p with
  | zero => rfl
  | succ q ih =>
    have hdata : (("x " ++ strRepeat "x " q : String)).data =
        ("x " : String).data ++ (strRepeat "x " q).data := rfl
    simp only [sepCount, buildPrompt, strRepeat] at *
    rw [hdata, List.count_append]
    simp only [ih]
    have hc : List.count ' ' ['x', ' '] = 1 := by decide
    omega

/-- C8: the prompt built for `2 * p` contains exactly twice as many separator
characters (spaces) as the prompt built for `p`: the separator count scales
linearly with `--prompt-tokens`. -/
theorem C8_prompt_scaling (p : Nat) :
    sepCount (buildPrompt (2 * p)) = 2 * sepCount (buildPrompt p) := by
  rw [sepCount_buildPrompt, sepCount_buildPrompt]

theorem sorted_getD_le {s : List ℚ} (hs : s.Sorted (· ≤ ·)) {i j : Nat}
    (hij : i ≤ j) (hj : j < s.length) : s.getD i 0 ≤ s.getD j 0 := by
  have hi : i < s.length := lt_of_le_of_lt hij hj
  rw [List.getD_eq_getElem _ _ hi, List.getD_eq_getElem _ _ hj]
  have h := hs.rel_get_of_le
    (show (⟨i, hi⟩ : Fin s.length) ≤ ⟨j, hj⟩ from Fin.mk_le_mk.mpr hij)
  simpa [List.get_eq_getElem] using h

theorem p99_index_floor (n : Nat) :
    Nat.floor ((99 : ℚ) / 100 * (n : ℚ)) = 99 * n / 100 := by
  have h : (99 : ℚ) / 100 * (n : ℚ) = ((99 * n : ℕ) : ℚ) / ((100 : ℕ) : ℚ) := by
    push_cast; ring
  rw [h, Nat.floor_div_nat, Nat.floor_natCast]

/-- C2: for a non-empty collected latency list, the reported P99 latency is
the element at index `⌊0.99 ⬝ N⌋` of the latencies in ascending sorted order:
there is a sorted rearrangement `s` of the latencies with
`p99_latency = s[⌊0.99 ⬝ N⌋]`. -/
theorem C2_p99_index (nr : Nat) (results : List (ℚ × Nat)) (T : ℚ)
    (h : results ≠ []) :
    ∃ s : List ℚ, s.Perm (results.map Prod.fst) ∧ s.Sorted (· ≤ ·) ∧
      (benchmark_concurrent_stats nr results T).p99_latency =
        s.getD (Nat.floor ((99 : ℚ) / 100 * ((results.map Prod.fst).length : ℚ))) 0 := by
  refine ⟨(results.map Prod.fst).insertionSort (· ≤ ·),
    List.perm_insertionSort _ _, List.sorted_insertionSort _ _, ?_⟩
  rw [p99_index_floor]
  rfl

/-- Witness for C2 at `results = [(5, 1), (2, 3), (9, 0)]`, `T = 1`. -/
theorem C2_p99_index_witness :
    ([((5 : ℚ), 1), ((2 : ℚ), 3), ((9 : ℚ), 0)] : List (ℚ × Nat)) ≠ [] ∧
    ∃ s : List ℚ,
      s.Perm (([((5 : ℚ), 1), ((2 : ℚ), 3), ((9 : ℚ), 0)] : List (ℚ × Nat)).map Prod.fst) ∧
      s.Sorted (· ≤ ·) ∧
      (benchmark_concurrent_stats 3 [((5 : ℚ), 1), ((2 : ℚ), 3), ((9 : ℚ), 0)] 1).p99_latency =
        s.getD (Nat.floor ((99 : ℚ) / 100 *
          ((([((5 : ℚ), 1), ((2 : ℚ), 3), ((9 : ℚ), 0)] : List (ℚ × Nat)).map Prod.fst).length : ℚ))) 0 :=
  ⟨by decide, C2_p99_index 3 [((5 : ℚ), 1), ((2 : ℚ), 3), ((9 : ℚ), 0)] 1 (by decide)⟩

theorem median_le_p99 (l : List ℚ) (h : l ≠ []) : median l ≤ p99 l := by
  have hsort := List.sorted_insertionSort (· ≤ ·) l
  have hlen : (l.insertionSort (· ≤ ·)).length = l.length :=
    (List.perm_insertionSort (· ≤ ·) l).length_eq
  have hpos : 0 < l.length := List.length_pos.mpr h
  have hjlt : 99 * l.length / 100 < (l.insertionSort (· ≤ ·)).length := by omega
  have hhalf : (l.insertionSort (· ≤ ·)).length / 2 ≤ 99 * l.length / 100 := by omega
  unfold median p99
  by_cases hodd : (l.insertionSort (· ≤ ·)).length % 2 = 1
  · rw [if_pos hodd]
    exact sorted_getD_le hsort hhalf hjlt
  · rw [if_neg hodd]
    have h2 := sorted_getD_le hsort (Nat.sub_le ((l.insertionSort (· ≤ ·)).length / 2) 1)
      (show (l.insertionSort (· ≤ ·)).length / 2 < (l.insertionSort (· ≤ ·)).length by omega)
    have h3 := sorted_getD_le hsort hhalf hjlt
    linarith

/-- C4: for a non-empty collected latency list, the reported P50 latency (the
median) is at most the reported P99 latency. -/
theorem C4_p50_le_p99 (nr : Nat) (results : List (ℚ × Nat)) (T : ℚ)
    (h : results ≠ []) :
    (benchmark_concurrent_stats nr results T).p50_latency ≤
      (benchmark_concurrent_stats nr results T).p99_latency := by
  have hmap : results.map Prod.fst ≠ [] := by
    simpa using h
  exact median_le_p99 (results.map Prod.fst) hmap

/-- Witness for C4 at `results = [(3, 7), (1, 2)]`, `T = 1`. -/
theorem C4_p50_le_p99_witness :
    ([((3 : ℚ), 7), ((1 : ℚ), 2)] : List (ℚ × Nat)) ≠ [] ∧
    (benchmark_concurrent_stats 2 [((3 : ℚ), 7), ((1 : ℚ), 2)] 1).p50_latency ≤
      (benchmark_concurrent_stats 2 [((3 : ℚ), 7), ((1 : ℚ), 2)] 1).p99_latency :=
  ⟨by decide, C4_p50_le_p99 2 [((3 : ℚ), 7), ((1 : ℚ), 2)] 1 (by decide)⟩

theorem insertionSort_eq_of_perm {l₁ l₂ : List ℚ} (h : l₁.Perm l₂) :
    l₁.insertionSort (· ≤ ·) = l₂.insertionSort (· ≤ ·) :=
  List.eq_of_perm_of_sorted
    ((List.perm_insertionSort (· ≤ ·) l₁).trans
      (h.trans (List.perm_insertionSort (· ≤ ·) l₂).symm))
    (List.sorted_insertionSort (· ≤ ·) l₁)
    (List.sorted_insertionSort (· ≤ ·) l₂)

/-- C9: every aggregate statistic of the concurrent batch is invariant under a
permutation of the collected results list: completion order cannot affect the
reported numbers. -/
theorem C9_perm_invariant (nr : Nat) (T : ℚ) (r₁ r₂ : List (ℚ × Nat))
    (h : r₁.Perm r₂) :
    benchmark_concurrent_stats nr r₁ T = benchmark_concurrent_stats nr r₂ T := by
  have hlat : (r₁.map Prod.fst).Perm (r₂.map Prod.fst) := h.map Prod.fst
  have htok : (r₁.map Prod.snd).Perm (r₂.map Prod.snd) := h.map Prod.snd
  have hsort := insertionSort_eq_of_perm hlat
  simp only [benchmark_concurrent_stats, ConcurrentStats.mk.injEq, mean, median, p99,
    hsort, hlat.length_eq, hlat.sum_eq, htok.sum_eq]

/-- Witness for C9 at `r₁ = [(1, 2), (3, 4)]`, `r₂ = [(3, 4), (1, 2)]`, `T = 5`. -/
theorem C9_perm_invariant_witness :
    (([((1 : ℚ), 2), ((3 : ℚ), 4)] : List (ℚ × Nat)).Perm
      ([((3 : ℚ), 4), ((1 : ℚ), 2)] : List (ℚ × Nat))) ∧
    benchmark_concurrent_stats 2 [((1 : ℚ), 2), ((3 : ℚ), 4)] 5 =
      benchmark_concurrent_stats 2 [((3 : ℚ), 4), ((1 : ℚ), 2)] 5 :=
  ⟨by decide, C9_perm_invariant 2 5 [((1 : ℚ), 2), ((3 : ℚ), 4)]
    [((3 : ℚ), 4), ((1 : ℚ), 2)] (by decide)⟩

theorem p99_eq_maximum (l : List ℚ) (h1 : l ≠ []) (h2 : l.length ≤ 100) :
    l.maximum = (p99 l : WithBot ℚ) := by
  have hsort := List.sorted_insertionSort (· ≤ ·) l
  have hperm := List.perm_insertionSort (· ≤ ·) l
  have hlen : (l.insertionSort (· ≤ ·)).length = l.length := hperm.length_eq
  have hpos : 0 < l.length := List.length_pos.mpr h1
  have hidx : 99 * l.length / 100 < (l.insertionSort (· ≤ ·)).length := by omega
  have heq : 99 * l.length / 100 = l.length - 1 := by omega
  rw [List.maximum_eq_coe_iff]
  constructor
  · show p99 l ∈ l
    unfold p99
    rw [List.getD_eq_getElem _ _ hidx]
    exact hperm.mem_iff.mp (List.getElem_mem hidx)
  · intro a ha
    have has : a ∈ l.insertionSort (· ≤ ·) := hperm.mem_iff.mpr ha
    obtain ⟨i, hi⟩ := List.mem_iff_get.mp has
    have hle : (i : Nat) ≤ 99 * l.length / 100 := by
      have hisl := i.isLt
      omega
    have hmono : (l.insertionSort (· ≤ ·)).getD (i : Nat) 0 ≤
        (l.insertionSort (· ≤ ·)).getD (99 * l.length / 100) 0 :=
      sorted_getD_le hsort hle hidx
    have hgi : (l.insertionSort (· ≤ ·)).getD (i : Nat) 0 = a := by
      rw [List.getD_eq_getElem _ _ i.isLt, ← hi, List.get_eq_getElem]
    rw [← hgi]
    exact hmono

/-- C10: for a collected batch of at most 100 requests (including the default
`--requests = 50`), the P99 index `⌊0.99 ⬝ N⌋` is `N - 1`, so the reported P99
latency is the maximum latency of the batch. -/
theorem C10_p99_is_max (nr : Nat) (results : List (ℚ × Nat)) (T : ℚ)
    (h1 : results ≠ []) (h2 : results.length ≤ 100) :
    99 * (results.map Prod.fst).length / 100 = (results.map Prod.fst).length - 1 ∧
    (results.map Prod.fst).maximum =
      ((benchmark_concurrent_stats nr results T).p99_latency : WithBot ℚ) := by
  have hmapne : results.map Prod.fst ≠ [] := by simpa using h1
  have hmaplen : (results.map Prod.fst).length = results.length := by simp
  have hpos : 0 < results.length := List.length_pos.mpr h1
  refine ⟨by omega, ?_⟩
  exact p99_eq_maximum (results.map Prod.fst) hmapne (by omega)

/-- Witness for C10 at `results = [(4, 1), (7, 2), (2, 3)]`, `T = 1`. -/
theorem C10_p99_is_max_witness :
    (([((4 : ℚ), 1), ((7 : ℚ), 2), ((2 : ℚ), 3)] : List (ℚ × Nat)) ≠ [] ∧
      ([((4 : ℚ), 1), ((7 : ℚ), 2), ((2 : ℚ), 3)] : List (ℚ × Nat)).length ≤ 100) ∧
    99 * (([((4 : ℚ), 1), ((7 : ℚ), 2), ((2 : ℚ), 3)] : List (ℚ × Nat)).map Prod.fst).length / 100 =
      (([((4 : ℚ), 1), ((7 : ℚ), 2), ((2 : ℚ), 3)] : List (ℚ × Nat)).map Prod.fst).length - 1 ∧
    (([((4 : ℚ), 1), ((7 : ℚ), 2), ((2 : ℚ), 3)] : List (ℚ × Nat)).map Prod.fst).maximum =
      ((benchmark_concurrent_stats 3 [((4 : ℚ), 1), ((7 : ℚ), 2), ((2 : ℚ), 3)] 1).p99_latency : WithBot ℚ) :=
  ⟨⟨by decide, by decide⟩,
    C10_p99_is_max 3 [((4 : ℚ), 1), ((7 : ℚ), 2), ((2 : ℚ), 3)] 1 (by decide) (by decide)⟩

/-- Events of one run of `benchmark_concurrent`, in program order. -/
inductive BenchEvent where
  | submit (i : Nat)
  | timerStart
  | collect (i : Nat)
  | timerStop
deriving DecidableEq

/-- The event trace of `benchmark_concurrent` (lines 43-50): the list
comprehension at lines 44-47 submits all `n` requests to the worker pool,
then line 48 reads the start timestamp, then line 49 collects the results in
completion order `order`, then line 50 reads the stop timestamp. -/
def concurrentTrace (n : Nat) (order : List Nat) : List BenchEvent :=
  ((List.range n).map BenchEvent.submit) ++ [BenchEvent.timerStart]
    ++ (order.map BenchEvent.collect) ++ [BenchEvent.timerStop]

/-- C5 as stated is false: in the run with one request (`n = 1`,
completion order `[0]`) the timer-start event does not precede the
submission of request 0 — the timestamp is read only after the submission
loop has finished. -/
theorem C5_counterexample :
    ¬ ((concurrentTrace 1 [0]).indexOf BenchEvent.timerStart <
        (concurrentTrace 1 [0]).indexOf (BenchEvent.submit 0)) := by
  decide

/-- C5 amended: the timer-start event *follows* the submission of every
request: in the trace of `benchmark_concurrent`, request `i` is submitted at
position `i` for each `i < n`, and the unique timer-start event sits at
position `n`, after all submissions. -/
theorem C5_amended_timer_after_submits (n : Nat) (order : List Nat) :
    (∀ i, i < n → (concurrentTrace n order)[i]? = some (BenchEvent.submit i)) ∧
    (concurrentTrace n order)[n]? = some BenchEvent.timerStart ∧
    (∀ m, (concurrentTrace n order)[m]? = some BenchEvent.timerStart → m = n) := by
  have hsub : ∀ i, i < n → (concurrentTrace n order)[i]? = some (BenchEvent.submit i) := by
    intro i hi
    unfold concurrentTrace
    rw [List.getElem?_append_left
          (by simp only [List.length_append, List.length_map, List.length_range]; omega),
        List.getElem?_append_left
          (by simp only [List.length_append, List.length_map, List.length_range,
                List.length_cons, List.length_nil]; omega),
        List.getElem?_append_left (by simp only [List.length_map, List.length_range]; omega)]
    simp [hi]
  have hts : (concurrentTrace n order)[n]? = some BenchEvent.timerStart := by
    unfold concurrentTrace
    rw [List.getElem?_append_left
          (by simp only [List.length_append, List.length_map, List.length_range,
                List.length_cons, List.length_nil]; omega),
        List.getElem?_append_left
          (by simp only [List.length_append, List.length_map, List.length_range,
                List.length_cons, List.length_nil]; omega),
        List.getElem?_append_right (by simp only [List.length_map, List.length_range]; omega)]
    simp
  refine ⟨hsub, hts, ?_⟩
  intro m hm
  by_contra hne
  rcases Nat.lt_or_ge m n with hlt | hge
  · rw [hsub m hlt] at hm
    simp at hm
  · have hgt : n + 1 ≤ m := by omega
    have hassoc : concurrentTrace n order =
        (((List.range n).map BenchEvent.submit) ++ [BenchEvent.timerStart]) ++
          ((order.map BenchEvent.collect) ++ [BenchEvent.timerStop]) := by
      simp [concurrentTrace, List.append_assoc]
    rw [hassoc, List.getElem?_append_right
          (by simp only [List.length_append, List.length_map, List.length_range,
                List.length_cons, List.length_nil]; omega)] at hm
    have hmem := List.getElem?_mem hm
    simp at hmem

/-- Witness for the amended C5 at `n = 2`, `order = [1, 0]`. -/
theorem C5_amended_timer_after_submits_witness :
    (∀ i, i < 2 → (concurrentTrace 2 [1, 0])[i]? = some (BenchEvent.submit i)) ∧
    (concurrentTrace 2 [1, 0])[2]? = some BenchEvent.timerStart ∧
    (∀ m, (concurrentTrace 2 [1, 0])[m]? = some BenchEvent.timerStart → m = 2) :=
  C5_amended_timer_after_submits 2 [1, 0]

/-- One line printed by the sequential phase of `main`. -/
inductive SeqLine where
  | request (idx : Nat) (latency : ℚ) (tokens : Nat)
  | average (val : ℚ)
deriving DecidableEq

/-- The loop of lines 90-94: starting from an empty `single_latencies` list,
iteration `i` appends the latency of call `i` and prints one request line
with that call's latency and token count.  `outcome i` is the (latency,
token-count) result of the `i`-th timed call; the pair returned is the
collected latencies together with the printed output after `k` iterations. -/
def sequentialLoop (outcome : Nat → ℚ × Nat) : Nat → List ℚ × List SeqLine
  | 0 => ([], [])
  | i + 1 =>
    ((sequentialLoop outcome i).1 ++ [(outcome i).1],
      (sequentialLoop outcome i).2 ++
        [SeqLine.request (i + 1) (outcome i).1 (outcome i).2])

/-- Output of the sequential phase after warmup (lines 89-95): the five timed
calls of the loop, followed by one `Average` line computed with
`statistics.mean(single_latencies)` after the loop has finished. -/
def sequentialPhase (outcome : Nat → ℚ × Nat) : List SeqLine :=
  (sequentialLoop outcome 5).2 ++
    [SeqLine.average (mean (sequentialLoop outcome 5).1)]

theorem sequentialPhase_closed_form (outcome : Nat → ℚ × Nat) :
    sequentialPhase outcome =
      [SeqLine.request 1 (outcome 0).1 (outcome 0).2,
       SeqLine.request 2 (outcome 1).1 (outcome 1).2,
       SeqLine.request 3 (outcome 2).1 (outcome 2).2,
       SeqLine.request 4 (outcome 3).1 (outcome 3).2,
       SeqLine.request 5 (outcome 4).1 (outcome 4).2,
       SeqLine.average (((outcome 0).1 + (outcome 1).1 + (outcome 2).1 +
         (outcome 3).1 + (outcome 4).1) / 5)] := by
  show (sequentialLoop outcome 5).2 ++
      [SeqLine.average (mean (sequentialLoop outcome 5).1)] = _
  have h5 : sequentialLoop outcome 5 =
      ([(outcome 0).1, (outcome 1).1, (outcome 2).1, (outcome 3).1, (outcome 4).1],
       [SeqLine.request 1 (outcome 0).1 (outcome 0).2,
        SeqLine.request 2 (outcome 1).1 (outcome 1).2,
        SeqLine.request 3 (outcome 2).1 (outcome 2).2,
        SeqLine.request 4 (outcome 3).1 (outcome 3).2,
        SeqLine.request 5 (outcome 4).1 (outcome 4).2]) := by
    show sequentialLoop outcome (4 + 1) = _
    simp [sequentialLoop]
  rw [h5]
  simp [mean]
  ring

/-- C6 as stated is false: with call latencies 1, 2, 3, 4, 5 the running
average of the latencies observed after the first call is 1, but no line of
the sequential phase output carries the value 1: the program prints each
call's latency and token count, and only one average — of all five
latencies — after the loop. -/
theorem C6_counterexample :
    SeqLine.average 1 ∉ sequentialPhase (fun i => (((i : ℚ) + 1), 10)) := by
  rw [sequentialPhase_closed_form]
  simp only [List.mem_cons, List.not_mem_nil, or_false]
  intro hmem
  rcases hmem with h | h | h | h | h | h <;> simp at h
  norm_num at h

/-- C6 amended: after the warmup calls (whose results are discarded), the
program performs exactly five sequential timed calls; for each call it prints
that call's latency and token count, and after the loop it prints a single
average line over all five latencies. -/
theorem C6_amended_sequential_output (outcome : Nat → ℚ × Nat) :
    sequentialPhase outcome =
      [SeqLine.request 1 (outcome 0).1 (outcome 0).2,
       SeqLine.request 2 (outcome 1).1 (outcome 1).2,
       SeqLine.request 3 (outcome 2).1 (outcome 2).2,
       SeqLine.request 4 (outcome 3).1 (outcome 3).2,
       SeqLine.request 5 (outcome 4).1 (outcome 4).2,
       SeqLine.average (((outcome 0).1 + (outcome 1).1 + (outcome 2).1 +
         (outcome 3).1 + (outcome 4).1) / 5)] :=
  sequentialPhase_closed_form outcome
